import Mathlib

/-!
Verification of the KLEE constant-expression evaluator
(`Executor::evalConstantExpr`, lib/Core/ExecutorUtil.cpp).

The evaluator performs a post-order fold of an immutable constant-expression
DAG into the engine's symbolic-expression representation.  Integer values are
klee `ConstantExpr` bit-vectors; their operations (the Expression Builder) are
declared in klee/Expr.h, which is outside the given source fragment, and are
therefore modelled from the spec as fixed-width two's-complement arithmetic.
Floating-point operations (the Float Expression Builder) are recorded as
constructor applications carrying the explicit rounding mode that the
evaluator passes, since their numeric semantics is likewise external.
-/

namespace KleeFold

/-- The APFloat rounding modes (llvm::APFloat::roundingMode). -/
inductive RoundingMode where
  | rmNearestTiesToEven
  | rmNearestTiesToAway
  | rmTowardPositive
  | rmTowardNegative
  | rmTowardZero
deriving DecidableEq, Repr

/-- Modelled from the spec: the Expression Builder's width-exact bit-vector
constant (`integerConstant(value, width)`, klee `ConstantExpr`).  The payload
is kept reduced modulo `2 ^ width` by every constructor below, mirroring a
width-`w` APInt. -/
structure ConstExpr where
  width : Nat
  value : Nat
deriving DecidableEq, Repr

namespace ConstExpr

/-- Modelled from the spec: `ConstantExpr::alloc(value, width)` builds a
width-exact bit-vector constant; the value is reduced to the width. -/
def alloc (v w : Nat) : ConstExpr := ⟨w, v % 2 ^ w⟩

/-- Signed (two's-complement) reinterpretation of the bit pattern. -/
def toSigned (e : ConstExpr) : Int :=
  if e.value < 2 ^ (e.width - 1) then (e.value : Int)
  else (e.value : Int) - 2 ^ e.width

/-- Modelled from the spec: `Extract(offset, width)` returns `width` bits of
the operand starting at bit `offset`; the evaluator only uses offset 0
(the low `width` bits, no sign handling). -/
def Extract (e : ConstExpr) (off w : Nat) : ConstExpr :=
  ⟨w, e.value / 2 ^ off % 2 ^ w⟩

/-- Modelled from the spec: `ZExt(w)` zero-extends to the declared width
(value preserved whenever `w` is at least the operand width). -/
def ZExt (e : ConstExpr) (w : Nat) : ConstExpr :=
  ⟨w, e.value % 2 ^ w⟩

/-- Modelled from the spec: `SExt(w)` sign-extends to the declared width
(signed value preserved whenever `w` is at least the operand width). -/
def SExt (e : ConstExpr) (w : Nat) : ConstExpr :=
  ⟨w, (e.toSigned % (2 ^ w : Int)).toNat⟩

/-- Modelled from the spec: fixed-width wraparound addition. -/
def Add (a b : ConstExpr) : ConstExpr :=
  ⟨a.width, (a.value + b.value) % 2 ^ a.width⟩

/-- Modelled from the spec: fixed-width wraparound subtraction. -/
def Sub (a b : ConstExpr) : ConstExpr :=
  ⟨a.width, (((a.value : Int) - b.value) % (2 ^ a.width : Int)).toNat⟩

/-- Modelled from the spec: fixed-width wraparound multiplication. -/
def Mul (a b : ConstExpr) : ConstExpr :=
  ⟨a.width, a.value * b.value % 2 ^ a.width⟩

/-- Modelled from the spec: unsigned division (divide-by-zero behavior is
builder-defined; `Nat` division returns 0 there). -/
def UDiv (a b : ConstExpr) : ConstExpr :=
  ⟨a.width, a.value / b.value % 2 ^ a.width⟩

/-- Modelled from the spec: signed division, truncating toward zero. -/
def SDiv (a b : ConstExpr) : ConstExpr :=
  ⟨a.width, ((Int.tdiv a.toSigned b.toSigned) % (2 ^ a.width : Int)).toNat⟩

/-- Modelled from the spec: unsigned remainder. -/
def URem (a b : ConstExpr) : ConstExpr :=
  ⟨a.width, a.value % b.value % 2 ^ a.width⟩

/-- Modelled from the spec: signed remainder (sign of the dividend). -/
def SRem (a b : ConstExpr) : ConstExpr :=
  ⟨a.width, ((Int.tmod a.toSigned b.toSigned) % (2 ^ a.width : Int)).toNat⟩

/-- Modelled from the spec: bitwise conjunction. -/
def And (a b : ConstExpr) : ConstExpr :=
  ⟨a.width, (Nat.land a.value b.value) % 2 ^ a.width⟩

/-- Modelled from the spec: bitwise disjunction. -/
def Or (a b : ConstExpr) : ConstExpr :=
  ⟨a.width, (Nat.lor a.value b.value) % 2 ^ a.width⟩

/-- Modelled from the spec: bitwise exclusive or. -/
def Xor (a b : ConstExpr) : ConstExpr :=
  ⟨a.width, (Nat.xor a.value b.value) % 2 ^ a.width⟩

/-- Modelled from the spec: left shift (out-of-width amounts are
builder-defined; shifting past the width yields 0 here). -/
def Shl (a b : ConstExpr) : ConstExpr :=
  ⟨a.width, (a.value <<< b.value) % 2 ^ a.width⟩

/-- Modelled from the spec: logical right shift. -/
def LShr (a b : ConstExpr) : ConstExpr :=
  ⟨a.width, (a.value >>> b.value) % 2 ^ a.width⟩

/-- Modelled from the spec: arithmetic right shift. -/
def AShr (a b : ConstExpr) : ConstExpr :=
  ⟨a.width, ((Int.tdiv a.toSigned (2 ^ b.value)) % (2 ^ a.width : Int)).toNat⟩

/-- Single-bit boolean constant, as produced by the comparison builders. -/
def boolC (b : Bool) : ConstExpr := ⟨1, if b then 1 else 0⟩

/-- Modelled from the spec: equality comparison, single-bit result. -/
def Eq (a b : ConstExpr) : ConstExpr := boolC (a.value == b.value)

/-- Modelled from the spec: inequality comparison. -/
def Ne (a b : ConstExpr) : ConstExpr := boolC (a.value != b.value)

/-- Modelled from the spec: unsigned greater-than. -/
def Ugt (a b : ConstExpr) : ConstExpr := boolC (b.value < a.value)

/-- Modelled from the spec: unsigned greater-or-equal. -/
def Uge (a b : ConstExpr) : ConstExpr := boolC (b.value ≤ a.value)

/-- Modelled from the spec: unsigned less-than. -/
def Ult (a b : ConstExpr) : ConstExpr := boolC (a.value < b.value)

/-- Modelled from the spec: unsigned less-or-equal. -/
def Ule (a b : ConstExpr) : ConstExpr := boolC (a.value ≤ b.value)

/-- Modelled from the spec: signed greater-than on the two's-complement
reinterpretation of the bit patterns. -/
def Sgt (a b : ConstExpr) : ConstExpr := boolC (b.toSigned < a.toSigned)

/-- Modelled from the spec: signed greater-or-equal. -/
def Sge (a b : ConstExpr) : ConstExpr := boolC (b.toSigned ≤ a.toSigned)

/-- Modelled from the spec: signed less-than. -/
def Slt (a b : ConstExpr) : ConstExpr := boolC (a.toSigned < b.toSigned)

/-- Modelled from the spec: signed less-or-equal. -/
def Sle (a b : ConstExpr) : ConstExpr := boolC (a.toSigned ≤ b.toSigned)

/-- Modelled from the spec: `Expr::isTrue()` holds exactly of the width-1
constant 1 (the true boolean constant). -/
def isTrueC (e : ConstExpr) : Bool := e.width == 1 && e.value == 1

end ConstExpr

/-- A Float Expression Builder value (klee `FConstantExpr`).  The builder's
numeric semantics is external, so each builder call is recorded as a
constructor application; in particular each operation that the evaluator
issues with a rounding mode carries that mode explicitly. -/
inductive FloatVal where
  /-- a leaf float constant: bit pattern and float format width -/
  | fconst (bits fmt : Nat)
  /-- `FAdd(other, roundingMode)` -/
  | fadd (a b : FloatVal) (rm : RoundingMode)
  /-- `FSub(other, roundingMode)` -/
  | fsub (a b : FloatVal) (rm : RoundingMode)
  /-- `FMul(other, roundingMode)` -/
  | fmul (a b : FloatVal) (rm : RoundingMode)
  /-- `FDiv(other, roundingMode)` -/
  | fdiv (a b : FloatVal) (rm : RoundingMode)
  /-- `FRem(other, roundingMode)` -/
  | frem (a b : FloatVal) (rm : RoundingMode)
  /-- `FExt(width, roundingMode)`: resize the float format -/
  | fext (a : FloatVal) (w : Nat) (rm : RoundingMode)
  /-- `UToF(width, roundingMode)`: unsigned integer to float -/
  | utof (a : ConstExpr) (w : Nat) (rm : RoundingMode)
  /-- `SToF(width, roundingMode)`: signed integer to float -/
  | stof (a : ConstExpr) (w : Nat) (rm : RoundingMode)
deriving DecidableEq, Repr

/-- A folded symbolic-expression value: an integer bit-vector constant, a
float constant, a float-to-integer conversion result, or a float-comparison
result (the latter two are integer-typed but produced by the float builder,
whose numeric semantics is external). -/
inductive Value where
  | int (e : ConstExpr)
  | float (f : FloatVal)
  /-- `FToU`/`FToS` (`signed` selects which), width and explicit rounding mode -/
  | ftoInt (signed : Bool) (a : FloatVal) (w : Nat) (rm : RoundingMode)
  /-- an `FCmp` builder result for predicate `pred` (single-bit boolean) -/
  | fcmpRes (pred : Nat) (a b : FloatVal)
deriving DecidableEq, Repr

/-- `Expr::isTrue()` on a folded value: true exactly for the width-1 integer
constant 1. -/
def Value.isTrue : Value → Bool
  | .int e => e.isTrueC
  | _ => false

/-- The opcodes handled by `evalConstantExpr`'s switch, plus `other` for any
LLVM opcode outside that closed set (the switch's `default` case). -/
inductive Opcode where
  | trunc | zext | sext
  | add | sub | mul | sdiv | udiv | srem | urem
  | and | or | xor | shl | lshr | ashr
  | bitCast | intToPtr | ptrToInt
  | getElementPtr | icmp | select
  | fadd | fsub | fmul | fdiv | frem
  | fpTrunc | fpExt | uiToFP | siToFP | fpToUI | fpToSI
  | fcmp
  /-- any other LLVM opcode, recorded by its numeric code -/
  | other (code : Nat)
deriving DecidableEq, Repr

/-- One step of a GEP type-indexed path, as seen by the loop over
`gep_type_iterator`.  A struct step records the Target-Layout element-offset
table of the struct (`StructLayout::getElementOffset`) together with the
constant field index; a sequential (array/pointer) step records the folded
index constant and the Target-Layout allocation size of the element type. -/
inductive GepStep where
  | structField (offsets : List Nat) (fieldIdx : Nat)
  | arrayIndex (index : ConstExpr) (elemSize : Nat)
deriving DecidableEq, Repr

/-- The addend contributed by one GEP step, exactly as the loop builds it:
a struct step allocates the layout byte offset of the field at pointer
width; a sequential step zero-extends the index to pointer width and
multiplies by the element allocation size. -/
def gepAddend (ptrW : Nat) : GepStep → ConstExpr
  | .structField offsets fieldIdx =>
      ConstExpr.alloc (offsets.getD fieldIdx 0) ptrW
  | .arrayIndex index elemSize =>
      (index.ZExt ptrW).Mul (ConstExpr.alloc elemSize ptrW)

/-- A constant expression: an integer constant leaf, a float constant leaf,
or an operation node with opcode, comparison predicate (LLVM numbering;
meaningful only for `icmp`/`fcmp`), declared result width, ordered operands,
and (for GEP) the type-indexed step list. -/
inductive CE where
  | intConst (width val : Nat)
  | floatConst (fmt bits : Nat)
  | node (op : Opcode) (pred : Nat) (width : Nat) (ops : List CE)
         (steps : List GepStep)

/-- Evaluation aborts the process on these conditions; the embedding returns
them as errors.  `unknownOpcode` is the switch default (node dump plus
`abort()`); the predicate errors are the `assert(0 && ...)` defaults of the
two predicate switches; `nullOperand` and `typeMismatch` model dereferencing
a null operand reference or a failing `cast<>` of a wrongly-typed operand. -/
inductive FoldErr where
  | unknownOpcode (code : Nat)
  | badICmpPred (pred : Nat)
  | badFCmpPred (pred : Nat)
  | nullOperand
  | typeMismatch
deriving DecidableEq, Repr

/-- `cast<ConstantExpr>(op)`: the operand must be present and integer. -/
def asInt : Option Value → Except FoldErr ConstExpr
  | some (.int e) => .ok e
  | some _ => .error .typeMismatch
  | none => .error .nullOperand

/-- `cast<FConstantExpr>(op)`: the operand must be present and float. -/
def asFloat : Option Value → Except FoldErr FloatVal
  | some (.float f) => .ok f
  | some _ => .error .typeMismatch
  | none => .error .nullOperand

/-- The operand must be present (a non-null `ref<Expr>`). -/
def asVal : Option Value → Except FoldErr Value
  | some v => .ok v
  | none => .error .nullOperand

/-- LLVM integer-comparison predicate numbers (ICmpInst::Predicate). -/
def ICMP_EQ : Nat := 32
def ICMP_NE : Nat := 33
def ICMP_UGT : Nat := 34
def ICMP_UGE : Nat := 35
def ICMP_ULT : Nat := 36
def ICMP_ULE : Nat := 37
def ICMP_SGT : Nat := 38
def ICMP_SGE : Nat := 39
def ICMP_SLT : Nat := 40
def ICMP_SLE : Nat := 41

/-- LLVM float-comparison predicate numbers (FCmpInst::Predicate). -/
def FCMP_FALSE : Nat := 0
def FCMP_OEQ : Nat := 1
def FCMP_OGT : Nat := 2
def FCMP_OGE : Nat := 3
def FCMP_OLT : Nat := 4
def FCMP_OLE : Nat := 5
def FCMP_ONE : Nat := 6
def FCMP_ORD : Nat := 7
def FCMP_UNO : Nat := 8
def FCMP_UEQ : Nat := 9
def FCMP_UGT : Nat := 10
def FCMP_UGE : Nat := 11
def FCMP_ULT : Nat := 12
def FCMP_ULE : Nat := 13
def FCMP_UNE : Nat := 14
def FCMP_TRUE : Nat := 15

/-- The explicit rounding mode passed by every float operation in the
evaluator: `APFloat::roundingMode::rmNearestTiesToEven`. -/
def rmNTE : RoundingMode := .rmNearestTiesToEven

/-- The inner `ICmp` predicate switch: the builder operation selected for a
handled predicate, `none` for the `default` case (`assert(0 && "unhandled
ICmp predicate")`). -/
def icmpOp (pred : Nat) : Option (ConstExpr → ConstExpr → ConstExpr) :=
  if pred = ICMP_EQ then some ConstExpr.Eq
  else if pred = ICMP_NE then some ConstExpr.Ne
  else if pred = ICMP_UGT then some ConstExpr.Ugt
  else if pred = ICMP_UGE then some ConstExpr.Uge
  else if pred = ICMP_ULT then some ConstExpr.Ult
  else if pred = ICMP_ULE then some ConstExpr.Ule
  else if pred = ICMP_SGT then some ConstExpr.Sgt
  else if pred = ICMP_SGE then some ConstExpr.Sge
  else if pred = ICMP_SLT then some ConstExpr.Slt
  else if pred = ICMP_SLE then some ConstExpr.Sle
  else none

/-- The 14 predicates handled by the inner `FCmp` switch; any other
predicate falls to its `default` case (`assert(0 && "unhandled FCmp
predicate")`). -/
def fcmpHandled (pred : Nat) : Bool :=
  pred == FCMP_OEQ || pred == FCMP_OGT || pred == FCMP_OGE ||
  pred == FCMP_OLT || pred == FCMP_OLE || pred == FCMP_ONE ||
  pred == FCMP_ORD || pred == FCMP_UNO || pred == FCMP_UEQ ||
  pred == FCMP_UGT || pred == FCMP_UGE || pred == FCMP_ULT ||
  pred == FCMP_ULE || pred == FCMP_UNE

/-- The opcode dispatch of `evalConstantExpr`, applied to the already-folded
operands `v1 v2 v3` (the source evaluates up to three operands before the
switch).  `ptrW` is `Context::get().getPointerWidth()`, `pred` the node's
comparison predicate, `w` the bit width of the node's declared result type
(`getWidthForLLVMType(type)`), `steps` the GEP type-indexed path. -/
def dispatch (ptrW : Nat) (op : Opcode) (pred w : Nat)
    (v1 v2 v3 : Option Value) (steps : List GepStep) :
    Except FoldErr Value :=
  match op with
  | .other code => .error (.unknownOpcode code)
  | .trunc => do
      let e ← asInt v1
      .ok (.int (e.Extract 0 w))
  | .zext => do
      let e ← asInt v1
      .ok (.int (e.ZExt w))
  | .sext => do
      let e ← asInt v1
      .ok (.int (e.SExt w))
  | .add => do
      let a ← asInt v1
      let b ← asInt v2
      .ok (.int (a.Add b))
  | .sub => do
      let a ← asInt v1
      let b ← asInt v2
      .ok (.int (a.Sub b))
  | .mul => do
      let a ← asInt v1
      let b ← asInt v2
      .ok (.int (a.Mul b))
  | .sdiv => do
      let a ← asInt v1
      let b ← asInt v2
      .ok (.int (a.SDiv b))
  | .udiv => do
      let a ← asInt v1
      let b ← asInt v2
      .ok (.int (a.UDiv b))
  | .srem => do
      let a ← asInt v1
      let b ← asInt v2
      .ok (.int (a.SRem b))
  | .urem => do
      let a ← asInt v1
      let b ← asInt v2
      .ok (.int (a.URem b))
  | .and => do
      let a ← asInt v1
      let b ← asInt v2
      .ok (.int (a.And b))
  | .or => do
      let a ← asInt v1
      let b ← asInt v2
      .ok (.int (a.Or b))
  | .xor => do
      let a ← asInt v1
      let b ← asInt v2
      .ok (.int (a.Xor b))
  | .shl => do
      let a ← asInt v1
      let b ← asInt v2
      .ok (.int (a.Shl b))
  | .lshr => do
      let a ← asInt v1
      let b ← asInt v2
      .ok (.int (a.LShr b))
  | .ashr => do
      let a ← asInt v1
      let b ← asInt v2
      .ok (.int (a.AShr b))
  | .bitCast => do
      let e ← asInt v1
      .ok (.int e)
  | .intToPtr => do
      let e ← asInt v1
      .ok (.int (e.ZExt w))
  | .ptrToInt => do
      let e ← asInt v1
      .ok (.int (e.ZExt w))
  | .getElementPtr => do
      let e ← asInt v1
      let base := e.ZExt ptrW
      .ok (.int (steps.foldl (fun acc st => acc.Add (gepAddend ptrW st)) base))
  | .icmp =>
      match icmpOp pred with
      | some cmp => do
          let a ← asInt v1
          let b ← asInt v2
          .ok (.int (cmp a b))
      | none => .error (.badICmpPred pred)
  | .select => do
      let c ← asVal v1
      let t ← asVal v2
      let f ← asVal v3
      .ok (if c.isTrue then t else f)
  | .fadd => do
      let a ← asFloat v1
      let b ← asFloat v2
      .ok (.float (.fadd a b rmNTE))
  | .fsub => do
      let a ← asFloat v1
      let b ← asFloat v2
      .ok (.float (.fsub a b rmNTE))
  | .fmul => do
      let a ← asFloat v1
      let b ← asFloat v2
      .ok (.float (.fmul a b rmNTE))
  | .fdiv => do
      let a ← asFloat v1
      let b ← asFloat v2
      .ok (.float (.fdiv a b rmNTE))
  | .frem => do
      let a ← asFloat v1
      let b ← asFloat v2
      .ok (.float (.frem a b rmNTE))
  | .fpTrunc => do
      let a ← asFloat v1
      .ok (.float (.fext a w rmNTE))
  | .fpExt => do
      let a ← asFloat v1
      .ok (.float (.fext a w rmNTE))
  | .uiToFP => do
      let e ← asInt v1
      .ok (.float (.utof e w rmNTE))
  | .siToFP => do
      let e ← asInt v1
      .ok (.float (.stof e w rmNTE))
  | .fpToUI => do
      let a ← asFloat v1
      .ok (.ftoInt false a w rmNTE)
  | .fpToSI => do
      let a ← asFloat v1
      .ok (.ftoInt true a w rmNTE)
  | .fcmp =>
      if fcmpHandled pred then do
        let a ← asFloat v1
        let b ← asFloat v2
        .ok (.fcmpRes pred a b)
      else .error (.badFCmpPred pred)

/-- `Executor::evalConstantExpr`: fold a constant expression into a symbolic
value.  Up to three operands are evaluated first, in order and eagerly
(mirroring the `op1`/`op2`/`op3` evaluation before the switch); then the
opcode dispatch folds the node. -/
def fold (ptrW : Nat) : CE → Except FoldErr Value
  | .intConst w v => .ok (.int (ConstExpr.alloc v w))
  | .floatConst fmt bits => .ok (.float (.fconst bits fmt))
  | .node op pred w ops steps =>
    match ops with
    | [] => dispatch ptrW op pred w none none none steps
    | [a] =>
      match fold ptrW a with
      | .error e => .error e
      | .ok v1 => dispatch ptrW op pred w (some v1) none none steps
    | [a, b] =>
      match fold ptrW a with
      | .error e => .error e
      | .ok v1 =>
        match fold ptrW b with
        | .error e => .error e
        | .ok v2 => dispatch ptrW op pred w (some v1) (some v2) none steps
    | a :: b :: c :: _ =>
      match fold ptrW a with
      | .error e => .error e
      | .ok v1 =>
        match fold ptrW b with
        | .error e => .error e
        | .ok v2 =>
          match fold ptrW c with
          | .error e => .error e
          | .ok v3 =>
            dispatch ptrW op pred w (some v1) (some v2) (some v3) steps

/-- The addend of one GEP step as §4.1 of the spec words it: for a struct
step, the Target-Layout byte offset of the field named by the constant
index; for a sequential step, the index value zero-extended to pointer
width times the Target-Layout allocation size of the element type. -/
def gepAddendSpecValue (ptrW : Nat) : GepStep → Nat
  | .structField offsets fieldIdx => offsets.getD fieldIdx 0
  | .arrayIndex index elemSize => (index.ZExt ptrW).value * elemSize

/-- The GEP result as the spec words it: the first operand zero-extended to
the platform pointer width plus the sum of one addend per index step, at
pointer width. -/
def gepResultSpec (ptrW : Nat) (base : ConstExpr) (steps : List GepStep) :
    ConstExpr :=
  ⟨ptrW, ((base.ZExt ptrW).value +
            (steps.map (gepAddendSpecValue ptrW)).sum) % 2 ^ ptrW⟩

/-- Every rounding mode recorded in a float value is round-to-nearest-even:
the float-builder operations were all issued with the explicit
`rmNearestTiesToEven` argument. -/
def FloatVal.onlyNTE : FloatVal → Bool
  | .fconst _ _ => true
  | .fadd a b rm => rm == .rmNearestTiesToEven && a.onlyNTE && b.onlyNTE
  | .fsub a b rm => rm == .rmNearestTiesToEven && a.onlyNTE && b.onlyNTE
  | .fmul a b rm => rm == .rmNearestTiesToEven && a.onlyNTE && b.onlyNTE
  | .fdiv a b rm => rm == .rmNearestTiesToEven && a.onlyNTE && b.onlyNTE
  | .frem a b rm => rm == .rmNearestTiesToEven && a.onlyNTE && b.onlyNTE
  | .fext a _ rm => rm == .rmNearestTiesToEven && a.onlyNTE
  | .utof _ _ rm => rm == .rmNearestTiesToEven
  | .stof _ _ rm => rm == .rmNearestTiesToEven

/-- Every rounding mode recorded anywhere in a folded value is
round-to-nearest-even. -/
def Value.onlyNTE : Value → Bool
  | .int _ => true
  | .float f => f.onlyNTE
  | .ftoInt _ a _ rm => rm == .rmNearestTiesToEven && a.onlyNTE
  | .fcmpRes _ a b => a.onlyNTE && b.onlyNTE

/-! ### Helper lemmas -/

lemma two_pow_pos (w : Nat) : 0 < 2 ^ w := Nat.pos_pow_of_pos w (by norm_num)

@[simp] lemma ok_bind {α β : Type} (x : α) (f : α → Except FoldErr β) :
    (Except.ok x >>= f : Except FoldErr β) = f x := rfl

@[simp] lemma error_bind {α β : Type} (e : FoldErr) (f : α → Except FoldErr β) :
    (Except.error e >>= f : Except FoldErr β) = Except.error e := rfl

lemma sext_spec (w tw v : Nat) (hv : v < 2 ^ w) (hw : w ≤ tw) :
    ConstExpr.SExt ⟨w, v⟩ tw =
      ⟨tw, if v < 2 ^ (w - 1) then v else v + (2 ^ tw - 2 ^ w)⟩ := by
  have hle : (2 : Nat) ^ w ≤ 2 ^ tw := Nat.pow_le_pow_right (by norm_num) hw
  have e1 : ((2 : Int) ^ w) = ((2 ^ w : Nat) : Int) := by push_cast; ring
  have e2 : ((2 : Int) ^ tw) = ((2 ^ tw : Nat) : Int) := by push_cast; ring
  unfold ConstExpr.SExt ConstExpr.toSigned
  simp only
  split
  case isTrue h =>
    congr 1
    rw [Int.emod_eq_of_lt (by positivity)
      (by rw [e2]; exact_mod_cast lt_of_lt_of_le hv hle)]
    simp
  case isFalse h =>
    congr 1
    have key : ((v : Int) - 2 ^ w) % 2 ^ tw = (v : Int) - 2 ^ w + 2 ^ tw := by
      have h1 : ((v : Int) - 2 ^ w) % 2 ^ tw =
          ((v : Int) - 2 ^ w + 2 ^ tw * 1) % 2 ^ tw := by
        rw [Int.add_mul_emod_self_left]
      rw [h1, Int.mul_one]
      refine Int.emod_eq_of_lt ?_ ?_
      · rw [e1, e2]; omega
      · rw [e1, e2]; omega
    rw [key, e1, e2]
    omega

/-! ### C5: integer arithmetic wraps around at the operand width -/

/-- C5: folding `Add` applies fixed-width two's-complement wraparound
addition; in particular `Add` of the width-8 constants 250 and 10 folds to
the width-8 constant 4, `Sub` of 0 and 1 folds to 255, and `Mul` of 128
and 2 folds to 0 (wraparound modulo 256). -/
theorem add_sub_mul_wraparound :
    (∀ ptrW p tw w a b,
        fold ptrW (.node .add p tw [.intConst w a, .intConst w b] []) =
          .ok (.int ⟨w, (a % 2 ^ w + b % 2 ^ w) % 2 ^ w⟩)) ∧
    fold 64 (.node .add 0 8 [.intConst 8 250, .intConst 8 10] []) =
      .ok (.int ⟨8, 4⟩) ∧
    fold 64 (.node .sub 0 8 [.intConst 8 0, .intConst 8 1] []) =
      .ok (.int ⟨8, 255⟩) ∧
    fold 64 (.node .mul 0 8 [.intConst 8 128, .intConst 8 2] []) =
      .ok (.int ⟨8, 0⟩) := by
  refine ⟨?_, rfl, rfl, rfl⟩
  intro ptrW p tw w a b
  rfl

/-! ### C6: Trunc / ZExt / SExt -/

/-- C6: folding `Trunc` extracts the low bits at the declared width, `ZExt`
zero-fills up to the declared width, and `SExt` sign-fills; in particular
`Trunc` of the 16-bit constant 0x1234 to width 8 folds to 0x34, `ZExt` of
the 8-bit constant 0xFF to width 16 folds to 0x00FF, and `SExt` of the
8-bit constant 0xFF to width 16 folds to 0xFFFF. -/
theorem trunc_zext_sext :
    (∀ ptrW p tw w v,
        fold ptrW (.node .trunc p tw [.intConst w v] []) =
          .ok (.int ⟨tw, v % 2 ^ w % 2 ^ tw⟩)) ∧
    (∀ ptrW p tw w v, v < 2 ^ w → w ≤ tw →
        fold ptrW (.node .zext p tw [.intConst w v] []) = .ok (.int ⟨tw, v⟩)) ∧
    (∀ ptrW p tw w v, v < 2 ^ w → w ≤ tw →
        fold ptrW (.node .sext p tw [.intConst w v] []) =
          .ok (.int ⟨tw, if v < 2 ^ (w - 1) then v
                         else v + (2 ^ tw - 2 ^ w)⟩)) ∧
    fold 64 (.node .trunc 0 8 [.intConst 16 0x1234] []) = .ok (.int ⟨8, 0x34⟩) ∧
    fold 64 (.node .zext 0 16 [.intConst 8 0xFF] []) = .ok (.int ⟨16, 0xFF⟩) ∧
    fold 64 (.node .sext 0 16 [.intConst 8 0xFF] []) = .ok (.int ⟨16, 0xFFFF⟩) := by
  refine ⟨?_, ?_, ?_, rfl, rfl, rfl⟩
  · intro ptrW p tw w v
    simp [fold, dispatch, asInt, ConstExpr.alloc, ConstExpr.Extract]
  · intro ptrW p tw w v hv hw
    have hle : (2 : Nat) ^ w ≤ 2 ^ tw := Nat.pow_le_pow_right (by norm_num) hw
    simp [fold, dispatch, asInt, ConstExpr.alloc, ConstExpr.ZExt,
      Nat.mod_eq_of_lt hv, Nat.mod_eq_of_lt (lt_of_lt_of_le hv hle)]
  · intro ptrW p tw w v hv hw
    simp [fold, dispatch, asInt, ConstExpr.alloc, Nat.mod_eq_of_lt hv,
      sext_spec w tw v hv hw]

/-- Witness for the hypotheses of `trunc_zext_sext`: the `ZExt` and `SExt`
general statements instantiated at width 8 to width 16, value 0xFF. -/
theorem trunc_zext_sext_witness :
    fold 64 (.node .zext 0 16 [.intConst 8 255] []) = .ok (.int ⟨16, 255⟩) ∧
    fold 64 (.node .sext 0 16 [.intConst 8 255] []) =
      .ok (.int ⟨16, if 255 < 2 ^ (8 - 1) then 255
                     else 255 + (2 ^ 16 - 2 ^ 8)⟩) :=
  ⟨trunc_zext_sext.2.1 64 0 16 8 255 (by norm_num) (by norm_num),
   trunc_zext_sext.2.2.1 64 0 16 8 255 (by norm_num) (by norm_num)⟩

/-! ### C7: unsigned versus signed greater-than -/

/-- C7: folding `ICmp` with the unsigned-greater-than predicate on the
width-32 constants 0xFFFFFFFF and 0 yields the single-bit boolean true,
while the signed-greater-than predicate on the same bit patterns
(0xFFFFFFFF read as −1) yields the single-bit boolean false. -/
theorem icmp_ugt_sgt_example :
    fold 64 (.node .icmp ICMP_UGT 1
        [.intConst 32 0xFFFFFFFF, .intConst 32 0] []) = .ok (.int ⟨1, 1⟩) ∧
    fold 64 (.node .icmp ICMP_SGT 1
        [.intConst 32 0xFFFFFFFF, .intConst 32 0] []) = .ok (.int ⟨1, 0⟩) :=
  ⟨rfl, rfl⟩

/-! ### C9: IntToPtr / PtrToInt are zero-extensions -/

/-- C9: folding `IntToPtr` and `PtrToInt` both return the operand
zero-extended to the declared result width; in particular no truncation is
performed at this layer — whenever the declared width is at least the
operand width the operand's value is returned unchanged. -/
theorem inttoptr_ptrtoint_zext :
    (∀ ptrW p tw w v,
        fold ptrW (.node .intToPtr p tw [.intConst w v] []) =
          .ok (.int ((ConstExpr.alloc v w).ZExt tw)) ∧
        fold ptrW (.node .ptrToInt p tw [.intConst w v] []) =
          .ok (.int ((ConstExpr.alloc v w).ZExt tw))) ∧
    (∀ ptrW p tw w v, v < 2 ^ w → w ≤ tw →
        fold ptrW (.node .intToPtr p tw [.intConst w v] []) =
          .ok (.int ⟨tw, v⟩) ∧
        fold ptrW (.node .ptrToInt p tw [.intConst w v] []) =
          .ok (.int ⟨tw, v⟩)) := by
  constructor
  · intro ptrW p tw w v
    exact ⟨rfl, rfl⟩
  · intro ptrW p tw w v hv hw
    have hle : (2 : Nat) ^ w ≤ 2 ^ tw := Nat.pow_le_pow_right (by norm_num) hw
    constructor <;>
      simp [fold, dispatch, asInt, ConstExpr.alloc, ConstExpr.ZExt,
        Nat.mod_eq_of_lt hv, Nat.mod_eq_of_lt (lt_of_lt_of_le hv hle)]

/-- Witness for the hypotheses of `inttoptr_ptrtoint_zext`: a width-32
pointer cast of an 8-bit constant preserves the value. -/
theorem inttoptr_ptrtoint_zext_witness :
    fold 64 (.node .intToPtr 0 32 [.intConst 8 200] []) =
      .ok (.int ⟨32, 200⟩) ∧
    fold 64 (.node .ptrToInt 0 32 [.intConst 8 200] []) =
      .ok (.int ⟨32, 200⟩) :=
  inttoptr_ptrtoint_zext.2 64 0 32 8 200 (by norm_num) (by norm_num)

/-! ### C10: FPTrunc and FPExt share one implementation -/

/-- C10: for every operand list and declared result format, folding an
`FPTrunc` node yields exactly the same result as folding an `FPExt` node:
both fall to the single resize operation `FExt(width, rmNearestTiesToEven)`,
so `FPTrunc` has no separate narrowing implementation. -/
theorem fptrunc_eq_fpext (ptrW p w : Nat) (ops : List CE) (steps : List GepStep) :
    fold ptrW (.node .fpTrunc p w ops steps) =
      fold ptrW (.node .fpExt p w ops steps) := by
  have hd : ∀ v1 v2 v3, dispatch ptrW .fpTrunc p w v1 v2 v3 steps =
      dispatch ptrW .fpExt p w v1 v2 v3 steps := fun _ _ _ => rfl
  match ops with
  | [] => simp only [fold]; exact hd none none none
  | [a] =>
    simp only [fold]
    cases fold ptrW a with
    | error e => rfl
    | ok v1 => exact hd (some v1) none none
  | [a, b] =>
    simp only [fold]
    cases fold ptrW a with
    | error e => rfl
    | ok v1 =>
      cases fold ptrW b with
      | error e => rfl
      | ok v2 => exact hd (some v1) (some v2) none
  | a :: b :: c :: rest =>
    simp only [fold]
    cases fold ptrW a with
    | error e => rfl
    | ok v1 =>
      cases fold ptrW b with
      | error e => rfl
      | ok v2 =>
        cases fold ptrW c with
        | error e => rfl
        | ok v3 => exact hd (some v1) (some v2) (some v3)

/-! ### C2 / C3: fatal invariant violations -/

lemma fold_node_not_ok (ptrW : Nat) (op : Opcode) (p w : Nat) (ops : List CE)
    (steps : List GepStep)
    (hdisp : ∀ v1 v2 v3 v, dispatch ptrW op p w v1 v2 v3 steps ≠ .ok v) :
    ∀ v, fold ptrW (.node op p w ops steps) ≠ .ok v := by
  intro v h
  match ops with
  | [] =>
    simp only [fold] at h
    exact hdisp none none none v h
  | [a] =>
    simp only [fold] at h
    split at h
    · exact Except.noConfusion h
    · exact hdisp _ _ _ v h
  | [a, b] =>
    simp only [fold] at h
    split at h
    · exact Except.noConfusion h
    · split at h
      · exact Except.noConfusion h
      · exact hdisp _ _ _ v h
  | a :: b :: c :: rest =>
    simp only [fold] at h
    split at h
    · exact Except.noConfusion h
    · split at h
      · exact Except.noConfusion h
      · split at h
        · exact Except.noConfusion h
        · exact hdisp _ _ _ v h

/-- C2: a node whose opcode lies outside the closed supported set reaches
the switch default, which dumps the node (recording its opcode) and
terminates the process; folding such a node never returns a value. -/
theorem unknown_opcode_aborts :
    (∀ ptrW code p w v1 v2 v3 steps,
        dispatch ptrW (.other code) p w v1 v2 v3 steps =
          .error (.unknownOpcode code)) ∧
    (∀ ptrW code p w ops steps v,
        fold ptrW (.node (.other code) p w ops steps) ≠ .ok v) := by
  constructor
  · intro ptrW code p w v1 v2 v3 steps
    rfl
  · intro ptrW code p w ops steps
    exact fold_node_not_ok ptrW (.other code) p w ops steps
      (fun v1 v2 v3 v h => by simp [dispatch] at h)

/-- Witness for `unknown_opcode_aborts`: opcode number 57 (an LLVM opcode
outside the evaluator's supported set) is rejected concretely. -/
theorem unknown_opcode_aborts_witness :
    dispatch 64 (.other 57) 0 32 none none none [] =
      .error (.unknownOpcode 57) ∧
    fold 64 (.node (.other 57) 0 32 [.intConst 8 1] []) ≠
      .ok (.int ⟨8, 1⟩) :=
  ⟨unknown_opcode_aborts.1 64 57 0 32 none none none [],
   unknown_opcode_aborts.2 64 57 0 32 [.intConst 8 1] [] (.int ⟨8, 1⟩)⟩

lemma icmpOp_eq_none {p : Nat}
    (h : p ∉ [ICMP_EQ, ICMP_NE, ICMP_UGT, ICMP_UGE, ICMP_ULT, ICMP_ULE,
              ICMP_SGT, ICMP_SGE, ICMP_SLT, ICMP_SLE]) :
    icmpOp p = none := by
  simp only [List.mem_cons, List.not_mem_nil, or_false, not_or] at h
  obtain ⟨h1, h2, h3, h4, h5, h6, h7, h8, h9, h10⟩ := h
  simp [icmpOp, h1, h2, h3, h4, h5, h6, h7, h8, h9, h10]

lemma fcmpHandled_eq_false {p : Nat}
    (h : p ∉ [FCMP_OEQ, FCMP_OGT, FCMP_OGE, FCMP_OLT, FCMP_OLE, FCMP_ONE,
              FCMP_ORD, FCMP_UNO, FCMP_UEQ, FCMP_UGT, FCMP_UGE, FCMP_ULT,
              FCMP_ULE, FCMP_UNE]) :
    fcmpHandled p = false := by
  simp only [List.mem_cons, List.not_mem_nil, or_false, not_or] at h
  obtain ⟨h1, h2, h3, h4, h5, h6, h7, h8, h9, h10, h11, h12, h13, h14⟩ := h
  simp [fcmpHandled, beq_iff_eq, h1, h2, h3, h4, h5, h6, h7, h8, h9, h10,
    h11, h12, h13, h14]

/-- C3: an `ICmp` node whose predicate is outside the 10-entry integer
table, or an `FCmp` node whose predicate is outside the 14-entry float
table, reaches the corresponding inner-switch default: like an unsupported
opcode, a diagnostic assertion terminates the process and folding never
returns a value. -/
theorem bad_predicate_aborts :
    (∀ ptrW p w v1 v2 v3 steps,
        p ∉ [ICMP_EQ, ICMP_NE, ICMP_UGT, ICMP_UGE, ICMP_ULT, ICMP_ULE,
             ICMP_SGT, ICMP_SGE, ICMP_SLT, ICMP_SLE] →
        dispatch ptrW .icmp p w v1 v2 v3 steps = .error (.badICmpPred p)) ∧
    (∀ ptrW p w v1 v2 v3 steps,
        p ∉ [FCMP_OEQ, FCMP_OGT, FCMP_OGE, FCMP_OLT, FCMP_OLE, FCMP_ONE,
             FCMP_ORD, FCMP_UNO, FCMP_UEQ, FCMP_UGT, FCMP_UGE, FCMP_ULT,
             FCMP_ULE, FCMP_UNE] →
        dispatch ptrW .fcmp p w v1 v2 v3 steps = .error (.badFCmpPred p)) ∧
    (∀ ptrW p w ops steps,
        p ∉ [ICMP_EQ, ICMP_NE, ICMP_UGT, ICMP_UGE, ICMP_ULT, ICMP_ULE,
             ICMP_SGT, ICMP_SGE, ICMP_SLT, ICMP_SLE] →
        ∀ v, fold ptrW (.node .icmp p w ops steps) ≠ .ok v) ∧
    (∀ ptrW p w ops steps,
        p ∉ [FCMP_OEQ, FCMP_OGT, FCMP_OGE, FCMP_OLT, FCMP_OLE, FCMP_ONE,
             FCMP_ORD, FCMP_UNO, FCMP_UEQ, FCMP_UGT, FCMP_UGE, FCMP_ULT,
             FCMP_ULE, FCMP_UNE] →
        ∀ v, fold ptrW (.node .fcmp p w ops steps) ≠ .ok v) := by
  refine ⟨?_, ?_, ?_, ?_⟩
  · intro ptrW p w v1 v2 v3 steps hp
    simp [dispatch, icmpOp_eq_none hp]
  · intro ptrW p w v1 v2 v3 steps hp
    simp [dispatch, fcmpHandled_eq_false hp]
  · intro ptrW p w ops steps hp
    exact fold_node_not_ok ptrW .icmp p w ops steps
      (fun v1 v2 v3 v h => by simp [dispatch, icmpOp_eq_none hp] at h)
  · intro ptrW p w ops steps hp
    exact fold_node_not_ok ptrW .fcmp p w ops steps
      (fun v1 v2 v3 v h => by simp [dispatch, fcmpHandled_eq_false hp] at h)

/-- Witness for the hypotheses of `bad_predicate_aborts`: predicate 0
(FCMP_FALSE's number) is outside the integer table and predicate 15
(FCMP_TRUE) is outside the float table. -/
theorem bad_predicate_aborts_witness :
    dispatch 64 .icmp 0 1 (some (.int ⟨32, 5⟩)) (some (.int ⟨32, 6⟩))
      none [] = .error (.badICmpPred 0) ∧
    dispatch 64 .fcmp 15 1 (some (.float (.fconst 0 64)))
      (some (.float (.fconst 0 64))) none [] = .error (.badFCmpPred 15) ∧
    fold 64 (.node .icmp 0 1 [.intConst 32 5, .intConst 32 6] []) ≠
      .ok (.int ⟨1, 1⟩) ∧
    fold 64 (.node .fcmp 15 1 [.floatConst 64 0, .floatConst 64 0] []) ≠
      .ok (.int ⟨1, 1⟩) :=
  ⟨bad_predicate_aborts.1 64 0 1 _ _ _ _ (by decide),
   bad_predicate_aborts.2.1 64 15 1 _ _ _ _ (by decide),
   bad_predicate_aborts.2.2.1 64 0 1 _ _ (by decide) _,
   bad_predicate_aborts.2.2.2 64 15 1 _ _ (by decide) _⟩

/-! ### C4: Select folds all three operands eagerly -/

/-- C4: all three `Select` operands are folded before the branch is chosen,
and the result is the folded second operand when the folded condition is
the true boolean constant, the folded third operand otherwise; because
evaluation is eager, a failing unselected branch still aborts the fold. -/
theorem select_eager :
    (∀ ptrW p w c a b rest steps v1 v2 v3,
        fold ptrW c = .ok v1 → fold ptrW a = .ok v2 → fold ptrW b = .ok v3 →
        fold ptrW (.node .select p w (c :: a :: b :: rest) steps) =
          .ok (if v1.isTrue then v2 else v3)) ∧
    (∀ ptrW p w c a b rest steps v1 v2 e,
        fold ptrW c = .ok v1 → v1.isTrue = true → fold ptrW a = .ok v2 →
        fold ptrW b = .error e →
        fold ptrW (.node .select p w (c :: a :: b :: rest) steps) =
          .error e) ∧
    (∀ ptrW p w c a b rest steps v1 e,
        fold ptrW c = .ok v1 → v1.isTrue = false → fold ptrW a = .error e →
        fold ptrW (.node .select p w (c :: a :: b :: rest) steps) =
          .error e) := by
  refine ⟨?_, ?_, ?_⟩
  · intro ptrW p w c a b rest steps v1 v2 v3 h1 h2 h3
    simp [fold, h1, h2, h3, dispatch, asVal]
  · intro ptrW p w c a b rest steps v1 v2 e h1 _ h2 h3
    simp [fold, h1, h2, h3, dispatch, asVal]
  · intro ptrW p w c a b rest steps v1 e h1 _ h2
    simp [fold, h1, h2, dispatch, asVal]

/-- Witness for the hypotheses of `select_eager`: a true condition selects
the folded second operand, and an aborting third operand aborts the fold
even though the condition is true. -/
theorem select_eager_witness :
    fold 64 (.node .select 0 8
        [.intConst 1 1, .intConst 8 7, .intConst 8 9] []) =
      .ok (.int ⟨8, 7⟩) ∧
    fold 64 (.node .select 0 8
        [.intConst 1 1, .intConst 8 7, .node (.other 99) 0 8 [] []] []) =
      .error (.unknownOpcode 99) :=
  ⟨select_eager.1 64 0 8 (.intConst 1 1) (.intConst 8 7) (.intConst 8 9)
      [] [] (.int ⟨1, 1⟩) (.int ⟨8, 7⟩) (.int ⟨8, 9⟩) rfl rfl rfl,
   select_eager.2.1 64 0 8 (.intConst 1 1) (.intConst 8 7)
      (.node (.other 99) 0 8 [] []) [] [] (.int ⟨1, 1⟩) (.int ⟨8, 7⟩)
      (.unknownOpcode 99) rfl rfl rfl rfl⟩

/-! ### C1: GetElementPtr accumulates one addend per step -/

lemma gepAddend_value (ptrW : Nat) (st : GepStep) :
    (gepAddend ptrW st).value = gepAddendSpecValue ptrW st % 2 ^ ptrW := by
  cases st with
  | structField offsets fieldIdx => rfl
  | arrayIndex index elemSize =>
    show (index.value % 2 ^ ptrW) * (elemSize % 2 ^ ptrW) % 2 ^ ptrW =
      (index.value % 2 ^ ptrW) * elemSize % 2 ^ ptrW
    conv_lhs => rw [Nat.mul_mod]
    conv_rhs => rw [Nat.mul_mod]
    simp

lemma gep_foldl (ptrW : Nat) (steps : List GepStep) :
    ∀ acc : Nat, acc < 2 ^ ptrW →
      List.foldl (fun (base : ConstExpr) st => base.Add (gepAddend ptrW st))
          ⟨ptrW, acc⟩ steps =
        ⟨ptrW, (acc + (steps.map (gepAddendSpecValue ptrW)).sum) %
          2 ^ ptrW⟩ := by
  induction steps with
  | nil =>
    intro acc h
    simp [Nat.mod_eq_of_lt h]
  | cons st rest ih =>
    intro acc h
    have hm : 0 < 2 ^ ptrW := two_pow_pos ptrW
    simp only [List.foldl_cons, List.map_cons, List.sum_cons]
    have hAdd : ConstExpr.Add ⟨ptrW, acc⟩ (gepAddend ptrW st) =
        ⟨ptrW, (acc + (gepAddend ptrW st).value) % 2 ^ ptrW⟩ := rfl
    rw [hAdd, ih _ (Nat.mod_lt _ hm)]
    congr 1
    rw [gepAddend_value ptrW st, Nat.mod_add_mod,
      Nat.add_right_comm acc (gepAddendSpecValue ptrW st % 2 ^ ptrW) _,
      Nat.add_mod_mod]
    congr 1
    omega

/-- C1: folding a `GetElementPtr` node zero-extends the first operand to
the platform pointer width and then accumulates, left-to-right, exactly one
addend per index step — the Target-Layout byte offset of the named field
for a struct step, and the zero-extended index times the Target-Layout
element allocation size for a sequential step — returning the accumulated
base (`gepResultSpec`) at pointer width. -/
theorem gep_accumulates (ptrW p w : Nat) (o1 : CE) (rest : List CE)
    (steps : List GepStep) (e : ConstExpr)
    (h1 : fold ptrW o1 = .ok (.int e))
    (hrest : ∀ c ∈ (o1 :: rest).take 3, ∃ u, fold ptrW c = .ok u) :
    fold ptrW (.node .getElementPtr p w (o1 :: rest) steps) =
      .ok (.int (gepResultSpec ptrW e steps)) := by
  have hm : 0 < 2 ^ ptrW := two_pow_pos ptrW
  have hbase : ConstExpr.ZExt e ptrW = ⟨ptrW, e.value % 2 ^ ptrW⟩ := rfl
  have hfold := gep_foldl ptrW steps (e.value % 2 ^ ptrW) (Nat.mod_lt _ hm)
  match rest with
  | [] =>
    simp [fold, h1, dispatch, asInt, hbase, hfold, gepResultSpec,
      ConstExpr.ZExt]
  | [b] =>
    obtain ⟨u, hu⟩ := hrest b (by simp)
    simp [fold, h1, hu, dispatch, asInt, hbase, hfold, gepResultSpec,
      ConstExpr.ZExt]
  | b :: c :: tail =>
    obtain ⟨u, hu⟩ := hrest b (by simp)
    obtain ⟨u2, hu2⟩ := hrest c (by simp)
    simp [fold, h1, hu, hu2, dispatch, asInt, hbase, hfold, gepResultSpec,
      ConstExpr.ZExt]

/-- Witness for the hypotheses of `gep_accumulates`: a GEP whose base is
0x100, stepping to field 1 of a struct with offsets [0, 4, 8] and then to
index 3 of an array of 12-byte elements, folds to 0x100 + 4 + 36 = 296. -/
theorem gep_accumulates_witness :
    fold 16 (.node .getElementPtr 0 16
        [.intConst 16 256, .intConst 32 1, .intConst 32 3]
        [.structField [0, 4, 8] 1, .arrayIndex ⟨32, 3⟩ 12]) =
      .ok (.int (gepResultSpec 16 ⟨16, 256⟩
        [.structField [0, 4, 8] 1, .arrayIndex ⟨32, 3⟩ 12])) ∧
    gepResultSpec 16 ⟨16, 256⟩
        [.structField [0, 4, 8] 1, .arrayIndex ⟨32, 3⟩ 12] = ⟨16, 296⟩ :=
  ⟨gep_accumulates 16 0 16 (.intConst 16 256)
      [.intConst 32 1, .intConst 32 3]
      [.structField [0, 4, 8] 1, .arrayIndex ⟨32, 3⟩ 12] ⟨16, 256⟩ rfl
      (by intro c hc
          fin_cases hc <;> exact ⟨_, rfl⟩),
   rfl⟩

/-! ### C8: every float operation uses round-to-nearest-even -/

lemma asFloat_ok_onlyNTE {v : Option Value} {f : FloatVal}
    (h : asFloat v = .ok f)
    (hv : ∀ x, v = some x → x.onlyNTE = true) : f.onlyNTE = true := by
  match v with
  | none => exact absurd h (by simp [asFloat])
  | some (.int e) => exact absurd h (by simp [asFloat])
  | some (.float f0) =>
    simp only [asFloat, Except.ok.injEq] at h
    subst h
    exact hv _ rfl
  | some (.ftoInt s a w rm) => exact absurd h (by simp [asFloat])
  | some (.fcmpRes p a b) => exact absurd h (by simp [asFloat])

lemma asVal_ok_onlyNTE {v : Option Value} {x : Value}
    (h : asVal v = .ok x)
    (hv : ∀ y, v = some y → y.onlyNTE = true) : x.onlyNTE = true := by
  match v with
  | none => exact absurd h (by simp [asVal])
  | some y =>
    simp only [asVal, Except.ok.injEq] at h
    subst h
    exact hv _ rfl

lemma dispatch_onlyNTE (ptrW : Nat) (op : Opcode) (p w : Nat)
    (v1 v2 v3 : Option Value) (steps : List GepStep) (v : Value)
    (h : dispatch ptrW op p w v1 v2 v3 steps = .ok v)
    (h1 : ∀ x, v1 = some x → x.onlyNTE = true)
    (h2 : ∀ x, v2 = some x → x.onlyNTE = true)
    (h3 : ∀ x, v3 = some x → x.onlyNTE = true) :
    v.onlyNTE = true := by
  cases op
  case other code => simp [dispatch] at h
  case trunc =>
    cases hi1 : asInt v1 <;> simp [dispatch, hi1] at h
    subst h; rfl
  case zext =>
    cases hi1 : asInt v1 <;> simp [dispatch, hi1] at h
    subst h; rfl
  case sext =>
    cases hi1 : asInt v1 <;> simp [dispatch, hi1] at h
    subst h; rfl
  case bitCast =>
    cases hi1 : asInt v1 <;> simp [dispatch, hi1] at h
    subst h; rfl
  case intToPtr =>
    cases hi1 : asInt v1 <;> simp [dispatch, hi1] at h
    subst h; rfl
  case ptrToInt =>
    cases hi1 : asInt v1 <;> simp [dispatch, hi1] at h
    subst h; rfl
  case getElementPtr =>
    cases hi1 : asInt v1 <;> simp [dispatch, hi1] at h
    subst h; rfl
  case add =>
    cases hi1 : asInt v1 <;> simp [dispatch, hi1] at h
    cases hi2 : asInt v2 <;> simp [hi2] at h
    subst h; rfl
  case sub =>
    cases hi1 : asInt v1 <;> simp [dispatch, hi1] at h
    cases hi2 : asInt v2 <;> simp [hi2] at h
    subst h; rfl
  case mul =>
    cases hi1 : asInt v1 <;> simp [dispatch, hi1] at h
    cases hi2 : asInt v2 <;> simp [hi2] at h
    subst h; rfl
  case sdiv =>
    cases hi1 : asInt v1 <;> simp [dispatch, hi1] at h
    cases hi2 : asInt v2 <;> simp [hi2] at h
    subst h; rfl
  case udiv =>
    cases hi1 : asInt v1 <;> simp [dispatch, hi1] at h
    cases hi2 : asInt v2 <;> simp [hi2] at h
    subst h; rfl
  case srem =>
    cases hi1 : asInt v1 <;> simp [dispatch, hi1] at h
    cases hi2 : asInt v2 <;> simp [hi2] at h
    subst h; rfl
  case urem =>
    cases hi1 : asInt v1 <;> simp [dispatch, hi1] at h
    cases hi2 : asInt v2 <;> simp [hi2] at h
    subst h; rfl
  case and =>
    cases hi1 : asInt v1 <;> simp [dispatch, hi1] at h
    cases hi2 : asInt v2 <;> simp [hi2] at h
    subst h; rfl
  case or =>
    cases hi1 : asInt v1 <;> simp [dispatch, hi1] at h
    cases hi2 : asInt v2 <;> simp [hi2] at h
    subst h; rfl
  case xor =>
    cases hi1 : asInt v1 <;> simp [dispatch, hi1] at h
    cases hi2 : asInt v2 <;> simp [hi2] at h
    subst h; rfl
  case shl =>
    cases hi1 : asInt v1 <;> simp [dispatch, hi1] at h
    cases hi2 : asInt v2 <;> simp [hi2] at h
    subst h; rfl
  case lshr =>
    cases hi1 : asInt v1 <;> simp [dispatch, hi1] at h
    cases hi2 : asInt v2 <;> simp [hi2] at h
    subst h; rfl
  case ashr =>
    cases hi1 : asInt v1 <;> simp [dispatch, hi1] at h
    cases hi2 : asInt v2 <;> simp [hi2] at h
    subst h; rfl
  case icmp =>
    cases hio : icmpOp p with
    | none => simp [dispatch, hio] at h
    | some cmp =>
      cases hi1 : asInt v1 <;> simp [dispatch, hio, hi1] at h
      cases hi2 : asInt v2 <;> simp [hi2] at h
      subst h; rfl
  case select =>
    cases ha1 : asVal v1 <;> simp [dispatch, ha1] at h
    cases ha2 : asVal v2 <;> simp [ha2] at h
    cases ha3 : asVal v3 <;> simp [ha3] at h
    subst h
    rename_i c t f
    have e2 := asVal_ok_onlyNTE ha2 h2
    have e3 := asVal_ok_onlyNTE ha3 h3
    cases hc : c.isTrue <;> simp [hc, e2, e3]
  case fadd =>
    cases hf1 : asFloat v1 <;> simp [dispatch, hf1] at h
    cases hf2 : asFloat v2 <;> simp [hf2] at h
    subst h
    have e1 := asFloat_ok_onlyNTE hf1 h1
    have e2 := asFloat_ok_onlyNTE hf2 h2
    simp [Value.onlyNTE, FloatVal.onlyNTE, rmNTE, e1, e2]
  case fsub =>
    cases hf1 : asFloat v1 <;> simp [dispatch, hf1] at h
    cases hf2 : asFloat v2 <;> simp [hf2] at h
    subst h
    have e1 := asFloat_ok_onlyNTE hf1 h1
    have e2 := asFloat_ok_onlyNTE hf2 h2
    simp [Value.onlyNTE, FloatVal.onlyNTE, rmNTE, e1, e2]
  case fmul =>
    cases hf1 : asFloat v1 <;> simp [dispatch, hf1] at h
    cases hf2 : asFloat v2 <;> simp [hf2] at h
    subst h
    have e1 := asFloat_ok_onlyNTE hf1 h1
    have e2 := asFloat_ok_onlyNTE hf2 h2
    simp [Value.onlyNTE, FloatVal.onlyNTE, rmNTE, e1, e2]
  case fdiv =>
    cases hf1 : asFloat v1 <;> simp [dispatch, hf1] at h
    cases hf2 : asFloat v2 <;> simp [hf2] at h
    subst h
    have e1 := asFloat_ok_onlyNTE hf1 h1
    have e2 := asFloat_ok_onlyNTE hf2 h2
    simp [Value.onlyNTE, FloatVal.onlyNTE, rmNTE, e1, e2]
  case frem =>
    cases hf1 : asFloat v1 <;> simp [dispatch, hf1] at h
    cases hf2 : asFloat v2 <;> simp [hf2] at h
    subst h
    have e1 := asFloat_ok_onlyNTE hf1 h1
    have e2 := asFloat_ok_onlyNTE hf2 h2
    simp [Value.onlyNTE, FloatVal.onlyNTE, rmNTE, e1, e2]
  case fpTrunc =>
    cases hf1 : asFloat v1 <;> simp [dispatch, hf1] at h
    subst h
    have e1 := asFloat_ok_onlyNTE hf1 h1
    simp [Value.onlyNTE, FloatVal.onlyNTE, rmNTE, e1]
  case fpExt =>
    cases hf1 : asFloat v1 <;> simp [dispatch, hf1] at h
    subst h
    have e1 := asFloat_ok_onlyNTE hf1 h1
    simp [Value.onlyNTE, FloatVal.onlyNTE, rmNTE, e1]
  case uiToFP =>
    cases hi1 : asInt v1 <;> simp [dispatch, hi1] at h
    subst h
    simp [Value.onlyNTE, FloatVal.onlyNTE, rmNTE]
  case siToFP =>
    cases hi1 : asInt v1 <;> simp [dispatch, hi1] at h
    subst h
    simp [Value.onlyNTE, FloatVal.onlyNTE, rmNTE]
  case fpToUI =>
    cases hf1 : asFloat v1 <;> simp [dispatch, hf1] at h
    subst h
    have e1 := asFloat_ok_onlyNTE hf1 h1
    simp [Value.onlyNTE, rmNTE, e1]
  case fpToSI =>
    cases hf1 : asFloat v1 <;> simp [dispatch, hf1] at h
    subst h
    have e1 := asFloat_ok_onlyNTE hf1 h1
    simp [Value.onlyNTE, rmNTE, e1]
  case fcmp =>
    cases hfp : fcmpHandled p with
    | false => simp [dispatch, hfp] at h
    | true =>
      cases hf1 : asFloat v1 <;> simp [dispatch, hfp, hf1] at h
      cases hf2 : asFloat v2 <;> simp [hf2] at h
      subst h
      have e1 := asFloat_ok_onlyNTE hf1 h1
      have e2 := asFloat_ok_onlyNTE hf2 h2
      simp [Value.onlyNTE, e1, e2]

lemma sizeOf_pos_ce (ce : CE) : 0 < sizeOf ce := by
  cases ce <;> simp_arith

lemma fold_ok_onlyNTE_aux (ptrW : Nat) :
    ∀ n, ∀ ce : CE, sizeOf ce ≤ n → ∀ v, fold ptrW ce = .ok v →
      v.onlyNTE = true := by
  intro n
  induction n with
  | zero =>
    intro ce hce
    have := sizeOf_pos_ce ce
    omega
  | succ n ih =>
    intro ce hce v h
    match ce with
    | .intConst w0 v0 =>
      simp only [fold, Except.ok.injEq] at h
      subst h; rfl
    | .floatConst fmt bits =>
      simp only [fold, Except.ok.injEq] at h
      subst h; rfl
    | .node op p w ops steps =>
      cases ops with
      | nil =>
        simp only [fold] at h
        exact dispatch_onlyNTE ptrW op p w none none none steps v h
          (by simp) (by simp) (by simp)
      | cons a t =>
        have hsa : sizeOf a ≤ n := by
          have hlt : sizeOf a < sizeOf (CE.node op p w (a :: t) steps) := by
            simp
            omega
          omega
        cases t with
        | nil =>
          simp only [fold] at h
          split at h
          · exact Except.noConfusion h
          · rename_i v1 heq
            have e1 := ih a hsa v1 heq
            exact dispatch_onlyNTE ptrW op p w (some v1) none none steps v h
              (by intro x hx; cases hx; exact e1) (by simp) (by simp)
        | cons b t2 =>
          have hsb : sizeOf b ≤ n := by
            have hlt : sizeOf b <
                sizeOf (CE.node op p w (a :: b :: t2) steps) := by
              simp
              omega
            omega
          cases t2 with
          | nil =>
            simp only [fold] at h
            split at h
            · exact Except.noConfusion h
            · rename_i v1 heq1
              split at h
              · exact Except.noConfusion h
              · rename_i v2 heq2
                have e1 := ih a hsa v1 heq1
                have e2 := ih b hsb v2 heq2
                exact dispatch_onlyNTE ptrW op p w (some v1) (some v2) none
                  steps v h (by intro x hx; cases hx; exact e1)
                  (by intro x hx; cases hx; exact e2) (by simp)
          | cons c t3 =>
            have hsc : sizeOf c ≤ n := by
              have hlt : sizeOf c <
                  sizeOf (CE.node op p w (a :: b :: c :: t3) steps) := by
                simp
                omega
              omega
            simp only [fold] at h
            split at h
            · exact Except.noConfusion h
            · rename_i v1 heq1
              split at h
              · exact Except.noConfusion h
              · rename_i v2 heq2
                split at h
                · exact Except.noConfusion h
                · rename_i v3 heq3
                  have e1 := ih a hsa v1 heq1
                  have e2 := ih b hsb v2 heq2
                  have e3 := ih c hsc v3 heq3
                  exact dispatch_onlyNTE ptrW op p w (some v1) (some v2)
                    (some v3) steps v h (by intro x hx; cases hx; exact e1)
                    (by intro x hx; cases hx; exact e2)
                    (by intro x hx; cases hx; exact e3)

/-- C8: every floating-point operation recorded in a folded value carries
the explicitly passed round-to-nearest-even rounding mode; no operation is
issued with an implicit or default mode. -/
theorem fold_roundingmode_nte (ptrW : Nat) (ce : CE) (v : Value)
    (h : fold ptrW ce = .ok v) : v.onlyNTE = true :=
  fold_ok_onlyNTE_aux ptrW (sizeOf ce) ce le_rfl v h

/-- Witness for the hypothesis of `fold_roundingmode_nte`: folding an
`FAdd` of two double constants records the explicit round-to-nearest-even
mode. -/
theorem fold_roundingmode_nte_witness :
    Value.onlyNTE (Value.float (.fadd (.fconst 3 64) (.fconst 5 64)
      .rmNearestTiesToEven)) = true :=
  fold_roundingmode_nte 64
    (.node .fadd 0 64 [.floatConst 64 3, .floatConst 64 5] []) _ rfl

end KleeFold
